import Mathlib

/-!
Verification of the WebtoRIS metadata-extraction and citation-formatting
pipeline (src/streamlit_app.py), shallowly embedded in Lean 4.

Python strings are modelled as Lean `String`; the string primitives the
source relies on (`strip`, `replace`, `split`, `lower`, `upper`, `in`,
`join`) are given structural definitions over the underlying character
lists so that every definition is executable by the kernel.  `Optional[T]`
is modelled as `Option T`, with the Python truthiness of strings (the empty
string is falsy) made explicit where the source relies on it.
Regular-expression word characters are modelled as ASCII alphanumerics and
underscore.
-/

/-- Python whitespace characters recognised by `str.strip()` and
`str.split()` (ASCII range). -/
def isPySpace (c : Char) : Bool :=
  c = ' ' || c = '\t' || c = '\n' || c = '\x0d' || c = '\x0b' || c = '\x0c'

/-- Does the list start with the given pattern? -/
def listStartsWith : List Char → List Char → Bool
  | _, [] => true
  | [], _ :: _ => false
  | c :: cs, p :: ps => c = p && listStartsWith cs ps

/-- Leftmost non-overlapping replacement on character lists, the semantics of
Python `str.replace` for a non-empty pattern.  The `skip` counter consumes
the remainder of a matched occurrence. -/
def replaceSkip (pat repl : List Char) : Nat → List Char → List Char
  | _, [] => []
  | skip + 1, _ :: cs => replaceSkip pat repl skip cs
  | 0, c :: cs =>
    if listStartsWith (c :: cs) pat then repl ++ replaceSkip pat repl (pat.length - 1) cs
    else c :: replaceSkip pat repl 0 cs

/-- Python `s.replace(pat, repl)` for a non-empty pattern. -/
def pyReplace (s pat repl : String) : String :=
  ⟨replaceSkip pat.data repl.data 0 s.data⟩

/-- Split a character list at every character satisfying `p`, keeping empty
pieces (the semantics of `re.split` on a character class). -/
def splitList (p : Char → Bool) : List Char → List (List Char)
  | [] => [[]]
  | c :: cs =>
    match splitList p cs, p c with
    | r, true => [] :: r
    | h :: t, false => (c :: h) :: t
    | [], false => [[c]]

/-- Python `s.strip()`: drop leading and trailing whitespace. -/
def pyStrip (s : String) : String :=
  ⟨((s.data.dropWhile isPySpace).reverse.dropWhile isPySpace).reverse⟩

/-- Python `s.split()` with no argument: split on whitespace runs, dropping
empty pieces. -/
def pySplit (s : String) : List String :=
  ((splitList isPySpace s.data).map String.mk).filter (fun p => p != "")

/-- Python `s.lower()` (ASCII). -/
def pyLower (s : String) : String :=
  ⟨s.data.map Char.toLower⟩

/-- Scan a character list for an occurrence of the pattern. -/
def hasSubstrAux (pat : List Char) : List Char → Bool
  | [] => listStartsWith [] pat
  | c :: cs => listStartsWith (c :: cs) pat || hasSubstrAux pat cs

/-- Python substring test `pat in s`. -/
def hasSubstr (s pat : String) : Bool :=
  hasSubstrAux pat.data s.data

/-- Python `sep.join(xs)`. -/
def pyJoin (sep : String) : List String → String
  | [] => ""
  | [x] => x
  | x :: y :: xs => x ++ sep ++ pyJoin sep (y :: xs)

/-- Python `x if x else d` (or `x or d`) on an optional string: the default
is taken when the value is absent or empty (falsy). -/
def pyStrOr (o : Option String) (d : String) : String :=
  match o with
  | some s => if s = "" then d else s
  | none => d

/-- `format_personal_name` from src/streamlit_app.py: trim, replace commas
with spaces, split on whitespace; zero or one token returns the trimmed
input; otherwise the last token is the surname and each earlier token whose
period-stripped form is non-empty contributes an upper-cased initial. -/
def format_personal_name (name : String) : String :=
  let name := pyStrip name
  let parts := pySplit (pyReplace name "," " ")
  if parts.length = 0 then name
  else if parts.length = 1 then name
  else
    let surname := parts.getLast!
    let given_parts := parts.dropLast
    let initials := given_parts.foldl
      (fun acc gp =>
        let gp_clean := pyReplace gp "." ""
        if gp_clean = "" then acc
        else acc ++ [⟨(gp_clean.data.take 1).map Char.toUpper⟩ ++ "."]) []
    if initials != [] then surname ++ ", " ++ pyJoin " " initials
    else surname

/-- The fixed organisational keyword list from `is_probable_corporate_author`. -/
def corp_keywords : List String :=
  ["commission", "department", "council", "university", "government",
   "ministry", "office", "organisation", "organization", "authority",
   "association", "society", "board", "institute", "foundation",
   "centre", "center"]

/-- `is_probable_corporate_author` from src/streamlit_app.py: a name is
probably corporate when its lower-casing contains one of the fixed keywords,
or when it has more than four whitespace-delimited tokens. -/
def is_probable_corporate_author (name : String) : Bool :=
  let lower := pyLower name
  if corp_keywords.any (fun k => hasSubstr lower k) then true
  else if 4 < (pySplit name).length then true
  else false

/-- `split_author_string` from src/streamlit_app.py: trim, replace the
literal substring " and " with ", ", split on commas and semicolons, trim
the pieces and drop empty ones; fall back to the trimmed input when nothing
remains. -/
def split_author_string (author_str : String) : List String :=
  let s := pyStrip author_str
  let s := pyReplace s " and " ", "
  let raw_parts := (splitList (fun c => c = ';' || c = ',') s.data).map String.mk
  let names := (raw_parts.map pyStrip).filter (fun p => p != "")
  if names != [] then names else [pyStrip author_str]

/-- A `meta` element of the parsed document: its `name`, `property` and
`content` attributes, each possibly absent. -/
structure MetaTag where
  name : Option String
  property : Option String
  content : Option String
deriving DecidableEq

/-- A parsed document: the text of its `title` element when the element
exists and has a string child, and its `meta` elements in document order. -/
structure Document where
  title : Option String
  metas : List MetaTag
deriving DecidableEq

/-- The MetaBag dictionary built by `extract_meta_tags`: one ordered bucket
of raw string values per recognised metadata source. -/
structure MetaBag where
  citation_title : List String
  og_title : List String
  twitter_title : List String
  meta_title : List String
  author : List String
  citation_author : List String
  article_author : List String
  date : List String
  publication_date : List String
  dc_date : List String
  article_published_time : List String
  site_name : List String
deriving DecidableEq

/-- The MetaBag whose buckets are all empty. -/
def emptyBag : MetaBag :=
  ⟨[], [], [], [], [], [], [], [], [], [], [], []⟩

/-- The body of the `meta`-element loop of `extract_meta_tags`: the if/elif
dispatch chain of src/streamlit_app.py, one element at a time. -/
def metaStep (bag : MetaBag) (tag : MetaTag) : MetaBag :=
  let nm := pyLower (tag.name.getD "")
  let prop := pyLower (tag.property.getD "")
  let content := pyStrip (tag.content.getD "")
  if content = "" then bag
  else if nm = "citation_title" then { bag with citation_title := bag.citation_title ++ [content] }
  else if prop = "og:title" then { bag with og_title := bag.og_title ++ [content] }
  else if nm = "twitter:title" then { bag with twitter_title := bag.twitter_title ++ [content] }
  else if nm = "author" then { bag with author := bag.author ++ [content] }
  else if nm = "citation_author" then { bag with citation_author := bag.citation_author ++ [content] }
  else if prop = "article:author" then { bag with article_author := bag.article_author ++ [content] }
  else if nm = "date" || nm = "article:published_time" then { bag with date := bag.date ++ [content] }
  else if nm = "citation_publication_date" then { bag with publication_date := bag.publication_date ++ [content] }
  else if listStartsWith nm.data "dc.date".data then { bag with dc_date := bag.dc_date ++ [content] }
  else if prop = "article:published_time" then { bag with article_published_time := bag.article_published_time ++ [content] }
  else if prop = "og:site_name" then { bag with site_name := bag.site_name ++ [content] }
  else bag

/-- `extract_meta_tags` from src/streamlit_app.py: seed `meta_title` with the
trimmed `title` text when the raw text is non-empty, then run the dispatch
loop over every `meta` element in order. -/
def extract_meta_tags (doc : Document) : MetaBag :=
  let bag := emptyBag
  let bag :=
    match doc.title with
    | some t => if t = "" then bag else { bag with meta_title := bag.meta_title ++ [pyStrip t] }
    | none => bag
  doc.metas.foldl metaStep bag

/-- The eleven bucket destinations a `meta` element can be dispatched to. -/
inductive BucketKey where
  | citation_title | og_title | twitter_title | author | citation_author
  | article_author | date | publication_date | dc_date
  | article_published_time | site_name
deriving DecidableEq

/-- Append one value to the bucket named by the key. -/
def pushBucket (bag : MetaBag) (k : BucketKey) (v : String) : MetaBag :=
  match k with
  | .citation_title => { bag with citation_title := bag.citation_title ++ [v] }
  | .og_title => { bag with og_title := bag.og_title ++ [v] }
  | .twitter_title => { bag with twitter_title := bag.twitter_title ++ [v] }
  | .author => { bag with author := bag.author ++ [v] }
  | .citation_author => { bag with citation_author := bag.citation_author ++ [v] }
  | .article_author => { bag with article_author := bag.article_author ++ [v] }
  | .date => { bag with date := bag.date ++ [v] }
  | .publication_date => { bag with publication_date := bag.publication_date ++ [v] }
  | .dc_date => { bag with dc_date := bag.dc_date ++ [v] }
  | .article_published_time => { bag with article_published_time := bag.article_published_time ++ [v] }
  | .site_name => { bag with site_name := bag.site_name ++ [v] }

/-- The first-matching dispatch rule of the Meta Collector as the claim
states it: the eleven rules checked in their fixed order on the lower-cased
`name` and `property` attributes, returning the single target bucket, or
none for an unmatched element. -/
def dispatchRule (nm prop : String) : Option BucketKey :=
  if nm = "citation_title" then some .citation_title
  else if prop = "og:title" then some .og_title
  else if nm = "twitter:title" then some .twitter_title
  else if nm = "author" then some .author
  else if nm = "citation_author" then some .citation_author
  else if prop = "article:author" then some .article_author
  else if nm = "date" || nm = "article:published_time" then some .date
  else if nm = "citation_publication_date" then some .publication_date
  else if listStartsWith nm.data "dc.date".data then some .dc_date
  else if prop = "article:published_time" then some .article_published_time
  else if prop = "og:site_name" then some .site_name
  else none

/-- Per-element contribution as the claim states it: skip an element whose
trimmed content is empty; otherwise add the content to exactly the bucket
picked by `dispatchRule`, ignoring unmatched elements. -/
def metaStepSpec (bag : MetaBag) (tag : MetaTag) : MetaBag :=
  let content := pyStrip (tag.content.getD "")
  if content = "" then bag
  else
    match dispatchRule (pyLower (tag.name.getD "")) (pyLower (tag.property.getD "")) with
    | some k => pushBucket bag k content
    | none => bag

/-- The Meta Collector as the claim states it: the title contribution plus
the per-element dispatch, folded over the `meta` elements in order. -/
def collectSpec (doc : Document) : MetaBag :=
  let bag := emptyBag
  let bag :=
    match doc.title with
    | some t => if t = "" then bag else { bag with meta_title := bag.meta_title ++ [pyStrip t] }
    | none => bag
  doc.metas.foldl metaStepSpec bag

/-- `choose_title` from src/streamlit_app.py: first value of the first
non-empty bucket among `citation_title, og_title, twitter_title, meta_title`. -/
def choose_title (meta : MetaBag) : Option String :=
  match meta.citation_title with
  | t :: _ => some t
  | [] =>
    match meta.og_title with
    | t :: _ => some t
    | [] =>
      match meta.twitter_title with
      | t :: _ => some t
      | [] =>
        match meta.meta_title with
        | t :: _ => some t
        | [] => none

/-- `choose_authors` from src/streamlit_app.py: gather raw author names from
`citation_author`, else by splitting the first `author` value, else by
splitting the first `article_author` value; then format each name, keeping a
probable corporate name (stripped) and rendering any other name with
`format_personal_name`. -/
def choose_authors (meta : MetaBag) : List String :=
  let raw_authors : List String :=
    match meta.citation_author with
    | _ :: _ => meta.citation_author
    | [] =>
      match meta.author with
      | a :: _ => split_author_string a
      | [] =>
        match meta.article_author with
        | a :: _ => split_author_string a
        | [] => []
  match raw_authors with
  | [] => []
  | _ :: _ =>
    raw_authors.foldl
      (fun formatted a =>
        formatted ++ [if is_probable_corporate_author a then pyStrip a else format_personal_name a]) []

/-- Raw author-name selection as the claim states it: the `citation_author`
values, else the split first `author` value, else the split first
`article_author` value, else nothing. -/
def rawAuthorsSpec (meta : MetaBag) : List String :=
  match meta.citation_author with
  | _ :: _ => meta.citation_author
  | [] =>
    match meta.author with
    | a :: _ => split_author_string a
    | [] =>
      match meta.article_author with
      | a :: _ => split_author_string a
      | [] => []

/-- Word characters of the year regular expression (ASCII alphanumerics and
underscore), used for the word-boundary test. -/
def isWordChar (c : Char) : Bool :=
  c.isAlphanum || c = '_'

/-- Does the regular expression `(19|20)dd` with word boundaries on both
sides match at position `i` of the character list? -/
def yearMatchAt (cs : List Char) (i : Nat) : Bool :=
  match cs.drop i with
  | c0 :: c1 :: c2 :: c3 :: rest =>
    ((c0 = '1' && c1 = '9') || (c0 = '2' && c1 = '0')) && c2.isDigit && c3.isDigit &&
    ((i == 0) || !isWordChar (cs.getD (i - 1) ' ')) &&
    (match rest with
     | [] => true
     | r :: _ => !isWordChar r)
  | _ => false

/-- Python `re.search` of the year pattern on one string: the leftmost
position where the boundary-delimited pattern matches, returning the matched
four characters. -/
def searchYear (s : String) : Option String :=
  ((List.range s.data.length).find? (yearMatchAt s.data)).map
    (fun i => ⟨(s.data.drop i).take 4⟩)

/-- Does the string contain a word-boundary-delimited year match at all? -/
def hasDelimitedYear (s : String) : Bool :=
  (List.range s.data.length).any (yearMatchAt s.data)

/-- `extract_year_from_dates` from src/streamlit_app.py: first string in the
list with a year match wins. -/
def extract_year_from_dates (dates : List String) : Option String :=
  dates.findSome? searchYear

/-- `choose_year` from src/streamlit_app.py: scan the four date buckets in
their fixed priority order. -/
def choose_year (meta : MetaBag) : Option String :=
  extract_year_from_dates
    (meta.article_published_time ++ meta.publication_date ++ meta.dc_date ++ meta.date)

/-- Characters allowed in a URL scheme by the Python `urllib` parser. -/
def isSchemeChar (c : Char) : Bool :=
  c.isAlphanum || c = '+' || c = '-' || c = '.'

/-- The Python `urllib` parser removes tab, carriage-return and line-feed
characters from the URL before parsing. -/
def removeUnsafeBytes (s : String) : String :=
  pyReplace (pyReplace (pyReplace s "\t" "") "\x0d" "") "\n" ""

/-- The Python `urllib` parser strips leading C0-control and space
characters from the URL. -/
def lstripControlOrSpace (s : String) : String :=
  ⟨s.data.dropWhile (fun c => decide (c.toNat ≤ 32))⟩

/-- The network-location component of a URL, following the Python `urllib`
parser: sanitise, strip a well-formed scheme prefix, and when the remainder
starts with two slashes take everything up to the next `/`, `?` or `#`. -/
def urlparse_netloc (url : String) : String :=
  let u := removeUnsafeBytes (lstripControlOrSpace url)
  let cs := u.data
  let cs :=
    match cs.findIdx? (fun c => c = ':') with
    | some i =>
      if decide (0 < i) && (cs.headD ' ').isAlpha && (cs.take i).all isSchemeChar
      then cs.drop (i + 1) else cs
    | none => cs
  match cs with
  | '/' :: '/' :: rest => ⟨rest.takeWhile (fun c => !(c = '/' || c = '?' || c = '#'))⟩
  | _ => ""

/-- `choose_site_name` from src/streamlit_app.py: first `site_name` bucket
value, else the network location of the URL, else the literal "Website". -/
def choose_site_name (meta : MetaBag) (url : String) : String :=
  match meta.site_name with
  | v :: _ => v
  | [] =>
    let host := urlparse_netloc url
    if host = "" then "Website" else host

/-- The author segment of `build_apa_reference`: the comma-joined author
list when non-empty, else the site name, else the literal "Author" (Python
`site_name or "Author"`). -/
def apaAuthorPart (authors : List String) (site_name : Option String) : String :=
  match authors with
  | [] => pyStrOr site_name "Author"
  | _ :: _ => pyJoin ", " authors

/-- `build_apa_reference` from src/streamlit_app.py. -/
def build_apa_reference (url : String) (title : Option String) (authors : List String)
    (year : Option String) (site_name : Option String) : String :=
  let author_part := apaAuthorPart authors site_name
  let year_part := pyStrOr year "n.d."
  let title_part := pyStrOr title "Title not available"
  let site_part := pyStrOr site_name ""
  pyStrip (author_part ++ ". (" ++ year_part ++ "). " ++ title_part ++ ". " ++
    site_part ++ ". Retrieved from " ++ url)

/-- A conditional RIS line: present exactly when the optional value is
truthy (present and non-empty). -/
def optRisLine (pre : String) (o : Option String) : List String :=
  match o with
  | some v => if v = "" then [] else [pre ++ v]
  | none => []

/-- `build_ris_record` from src/streamlit_app.py: the fixed line order, one
AU line per author with a trailing comma, conditional TI and PY lines,
always UR, N1 and the ER terminator, joined by newlines with two trailing
newlines. -/
def build_ris_record (url : String) (title : Option String) (authors : List String)
    (year : Option String) (apa_ref : String) : String :=
  let lines : List String := ["TY  - ELEC"]
  let lines := lines ++ authors.map (fun a => "AU  - " ++ a ++ ",")
  let lines := lines ++ optRisLine "TI  - " title
  let lines := lines ++ optRisLine "PY  - " year
  let lines := lines ++ ["UR  - " ++ url]
  let lines := lines ++ ["N1  - " ++ apa_ref]
  let lines := lines ++ ["ER  - "]
  pyJoin "\n" lines ++ "\n\n"

/-- Claim C1 word-for-word rendering of `format_personal_name`: in the
multi-token case EVERY non-surname token becomes an initial and the output
is always the surname, a comma and a space, and the joined initials. -/
def claimFormatPersonalName (name : String) : String :=
  let trimmed := pyStrip name
  let parts := pySplit (pyReplace trimmed "," " ")
  if parts.length = 0 then trimmed
  else if parts.length = 1 then trimmed
  else
    let surname := parts.getLast!
    let initials := parts.dropLast.map
      (fun gp => (⟨((pyReplace gp "." "").data.take 1).map Char.toUpper⟩ : String) ++ ".")
    surname ++ ", " ++ pyJoin " " initials

/-- Amended C1 rendering of `format_personal_name`: as the claim states it,
except that a token whose period-stripped form is empty contributes no
initial, and when no initials remain the surname alone is returned. -/
def amendedFormatPersonalName (name : String) : String :=
  let trimmed := pyStrip name
  let parts := pySplit (pyReplace trimmed "," " ")
  if parts.length = 0 then trimmed
  else if parts.length = 1 then trimmed
  else
    let surname := parts.getLast!
    let initials := parts.dropLast.filterMap
      (fun gp =>
        let g := pyReplace gp "." ""
        if g = "" then none
        else some ((⟨(g.data.take 1).map Char.toUpper⟩ : String) ++ "."))
    if initials = [] then surname
    else surname ++ ", " ++ pyJoin " " initials

lemma foldl_initials_eq_filterMap (l : List String) :
    ∀ acc : List String,
      l.foldl (fun acc gp =>
        if pyReplace gp "." "" = "" then acc
        else acc ++ [(⟨((pyReplace gp "." "").data.take 1).map Char.toUpper⟩ : String) ++ "."]) acc
      = acc ++ l.filterMap (fun gp =>
          if pyReplace gp "." "" = "" then none
          else some ((⟨((pyReplace gp "." "").data.take 1).map Char.toUpper⟩ : String) ++ ".")) := by
  induction l with
  | nil => intro acc; simp
  | cons x xs ih =>
    intro acc
    simp only [List.foldl_cons, List.filterMap_cons]
    by_cases h : pyReplace x "." "" = ""
    · rw [if_pos h, if_pos h]
      exact ih acc
    · rw [if_neg h, if_neg h, ih]
      simp

/-- C1: format_personal_name, as the claim states it, fails on the input
". Smith": the two tokens put the claim in its multi-token case, whose
output shape is the surname followed by a comma, a space and the joined
initials, but the code returns the bare surname because the lone given
token consists only of a period and contributes no initial. -/
theorem claim_C1_counterexample :
    format_personal_name ". Smith" = "Smith" ∧
    claimFormatPersonalName ". Smith" = "Smith, ." ∧
    ("Smith" == "Smith, .") = false ∧
    ("Smith" == "Smith, ") = false := by
  refine ⟨by decide, by decide, by decide, by decide⟩

/-- C1 (amended): format_personal_name trims, replaces commas with spaces
and splits on whitespace; zero or one token returns the trimmed input;
otherwise the last token is the surname and every other token whose
period-stripped form is non-empty becomes an upper-cased initial with a
period appended; the initials are joined with single spaces and the output
is the surname, a comma and a space, and the initials — except that when no
initials remain the surname alone is returned.  The three quoted examples
hold. -/
theorem claim_C1_amended :
    (∀ s : String, format_personal_name s = amendedFormatPersonalName s) ∧
    format_personal_name "Helen Christensen" = "Christensen, H." ∧
    format_personal_name "H. Christensen" = "Christensen, H." ∧
    format_personal_name "Madonna" = "Madonna" := by
  refine ⟨?_, by decide, by decide, by decide⟩
  intro s
  simp only [format_personal_name, amendedFormatPersonalName]
  by_cases h0 : (pySplit (pyReplace (pyStrip s) "," " ")).length = 0
  · simp [h0]
  · by_cases h1 : (pySplit (pyReplace (pyStrip s) "," " ")).length = 1
    · simp [h0, h1]
    · simp only [h0, h1, if_false]
      rw [foldl_initials_eq_filterMap]
      simp only [List.nil_append]
      by_cases hI : (pySplit (pyReplace (pyStrip s) "," " ")).dropLast.filterMap
          (fun gp =>
            if pyReplace gp "." "" = "" then none
            else some ((⟨((pyReplace gp "." "").data.take 1).map Char.toUpper⟩ : String) ++ ".")) = []
      · rw [hI]
        simp
      · simp only [bne_iff_ne, ne_eq]
        rw [if_pos hI, if_neg hI]

lemma foldl_push_eq_map (f : String → String) (l : List String) :
    ∀ acc : List String,
      l.foldl (fun formatted a => formatted ++ [f a]) acc = acc ++ l.map f := by
  induction l with
  | nil => intro acc; simp
  | cons x xs ih =>
    intro acc
    simp only [List.foldl_cons, List.map_cons]
    rw [ih]
    simp

/-- C2: author selection, as the claim states it, fails on the MetaBag whose
citation_author bucket holds the single value " The Ford Foundation " with
surrounding spaces: the name is classified corporate (it contains the
keyword "foundation"), but the code strips it rather than keeping it
verbatim. -/
theorem claim_C2_counterexample :
    choose_authors { emptyBag with citation_author := [" The Ford Foundation "] }
      = ["The Ford Foundation"] ∧
    (["The Ford Foundation"] == [" The Ford Foundation "]) = false := by
  refine ⟨by decide, by decide⟩

/-- C2 (amended): author selection takes each citation_author value as one
author name, else splits the first author value, else splits the first
article_author value, else yields the empty list; each name is classified
corporate exactly when its lower-casing contains one of the 17 fixed
organizational keywords or its whitespace token count exceeds 4, and a
corporate name is kept verbatim apart from trimming surrounding whitespace,
while any other name is rendered by format_personal_name. -/
theorem claim_C2_amended :
    (∀ meta : MetaBag, choose_authors meta = (rawAuthorsSpec meta).map
      (fun a => if is_probable_corporate_author a then pyStrip a else format_personal_name a)) ∧
    (∀ name : String, is_probable_corporate_author name =
      (corp_keywords.any (fun k => hasSubstr (pyLower name) k) ||
        decide (4 < (pySplit name).length))) := by
  constructor
  · intro meta
    show (match rawAuthorsSpec meta with
      | [] => []
      | _ :: _ => (rawAuthorsSpec meta).foldl
          (fun formatted a =>
            formatted ++ [if is_probable_corporate_author a then pyStrip a else format_personal_name a]) []) = _
    rcases hR : rawAuthorsSpec meta with _ | ⟨a, as⟩
    · simp
    · rw [foldl_push_eq_map
        (fun a => if is_probable_corporate_author a then pyStrip a else format_personal_name a)]
      simp
  · intro name
    by_cases hA : corp_keywords.any (fun k => hasSubstr (pyLower name) k) = true
    · simp [is_probable_corporate_author, hA]
    · by_cases hB : 4 < (pySplit name).length
      · simp [is_probable_corporate_author, hA, hB]
      · simp [is_probable_corporate_author, hA, hB]

/-- C8: split_author_string trims the input, replaces every literal " and "
with ", ", splits on commas and semicolons, trims the pieces and drops the
empty ones, and falls back to the single-element list holding the trimmed
input when no piece remains; the three quoted examples hold. -/
theorem claim_C8 :
    (∀ s : String, split_author_string s =
      (if (((splitList (fun c => c = ';' || c = ',')
              (pyReplace (pyStrip s) " and " ", ").data).map String.mk).map pyStrip).filter
            (fun p => p != "") = []
       then [pyStrip s]
       else (((splitList (fun c => c = ';' || c = ',')
              (pyReplace (pyStrip s) " and " ", ").data).map String.mk).map pyStrip).filter
            (fun p => p != ""))) ∧
    split_author_string "Helen Christensen, Andrew Slade" = ["Helen Christensen", "Andrew Slade"] ∧
    split_author_string "Helen Christensen; Andrew Slade" = ["Helen Christensen", "Andrew Slade"] ∧
    split_author_string "Helen Christensen and Andrew Slade" = ["Helen Christensen", "Andrew Slade"] := by
  refine ⟨?_, by decide, by decide, by decide⟩
  intro s
  simp only [split_author_string, bne_iff_ne, ne_eq]
  by_cases h : (((splitList (fun c => c = ';' || c = ',')
      (pyReplace (pyStrip s) " and " ", ").data).map String.mk).map pyStrip).filter
      (fun p => p != "") = []
  · rw [if_neg (not_not_intro h), if_pos h]
  · rw [if_pos h, if_neg h]

/-- C9: choose_title returns the first value of the first non-empty bucket
among citation_title, og_title, twitter_title, meta_title, and none when all
four are empty; in particular with empty citation_title and non-empty
og_title the first og_title value is returned. -/
theorem claim_C9 :
    (∀ meta : MetaBag, choose_title meta =
      (meta.citation_title.head?.or (meta.og_title.head?.or
        (meta.twitter_title.head?.or meta.meta_title.head?)))) ∧
    (∀ (b : MetaBag) (t : String) (ts : List String),
      choose_title { b with citation_title := [], og_title := t :: ts } = some t) := by
  constructor
  · intro meta
    rcases meta with ⟨ct, ot, tt, mt, _, _, _, _, _, _, _, _⟩
    cases ct <;> cases ot <;> cases tt <;> cases mt <;> rfl
  · intro b t ts
    rfl

/-- C3: choose_year concatenates the four date buckets in their fixed
priority order and extract_year_from_dates returns the four characters of
the leftmost word-boundary-delimited (19|20)dd match of the first matching
candidate, absent when no candidate matches; a match exists in a string
exactly when some position carries a delimited match, an embedded run such
as "20231" does not match, and the quoted candidate list yields "1998". -/
theorem claim_C3 :
    (∀ meta : MetaBag, choose_year meta = extract_year_from_dates
      (meta.article_published_time ++ meta.publication_date ++ meta.dc_date ++ meta.date)) ∧
    (∀ dates : List String, extract_year_from_dates dates = dates.findSome? searchYear) ∧
    (∀ s : String, (searchYear s).isSome = hasDelimitedYear s) ∧
    extract_year_from_dates ["Copyright 1998-2024", "no year here"] = some "1998" ∧
    extract_year_from_dates [] = none ∧
    searchYear "20231" = none ∧
    searchYear "in 2023." = some "2023" := by
  refine ⟨fun _ => rfl, fun _ => rfl, ?_, by decide, by decide, by decide, by decide⟩
  intro s
  rw [Bool.eq_iff_iff]
  simp [searchYear, hasDelimitedYear, List.find?_isSome, List.any_eq_true]

lemma metaStep_eq_metaStepSpec : metaStep = metaStepSpec := by
  funext bag tag
  simp only [metaStep, metaStepSpec, dispatchRule]
  by_cases h : pyStrip (tag.content.getD "") = ""
  · simp [h]
  · simp only [h, if_false, if_neg h]
    by_cases h1 : pyLower (tag.name.getD "") = "citation_title"
    · rw [if_pos h1, if_pos h1]; rfl
    rw [if_neg h1, if_neg h1]
    by_cases h2 : pyLower (tag.property.getD "") = "og:title"
    · rw [if_pos h2, if_pos h2]; rfl
    rw [if_neg h2, if_neg h2]
    by_cases h3 : pyLower (tag.name.getD "") = "twitter:title"
    · rw [if_pos h3, if_pos h3]; rfl
    rw [if_neg h3, if_neg h3]
    by_cases h4 : pyLower (tag.name.getD "") = "author"
    · rw [if_pos h4, if_pos h4]; rfl
    rw [if_neg h4, if_neg h4]
    by_cases h5 : pyLower (tag.name.getD "") = "citation_author"
    · rw [if_pos h5, if_pos h5]; rfl
    rw [if_neg h5, if_neg h5]
    by_cases h6 : pyLower (tag.property.getD "") = "article:author"
    · rw [if_pos h6, if_pos h6]; rfl
    rw [if_neg h6, if_neg h6]
    by_cases h7 : (decide (pyLower (tag.name.getD "") = "date") ||
        decide (pyLower (tag.name.getD "") = "article:published_time")) = true
    · rw [if_pos h7, if_pos h7]; rfl
    rw [if_neg h7, if_neg h7]
    by_cases h8 : pyLower (tag.name.getD "") = "citation_publication_date"
    · rw [if_pos h8, if_pos h8]; rfl
    rw [if_neg h8, if_neg h8]
    by_cases h9 : listStartsWith (pyLower (tag.name.getD "")).data "dc.date".data = true
    · rw [if_pos h9, if_pos h9]; rfl
    rw [if_neg h9, if_neg h9]
    by_cases h10 : pyLower (tag.property.getD "") = "article:published_time"
    · rw [if_pos h10, if_pos h10]; rfl
    rw [if_neg h10, if_neg h10]
    by_cases h11 : pyLower (tag.property.getD "") = "og:site_name"
    · rw [if_pos h11, if_pos h11]; rfl
    rw [if_neg h11, if_neg h11]

/-- C4: the Meta Collector reads the name and property attributes of every
meta element with missing mapped to the empty string and lower-cased, skips
an element whose trimmed content is empty, sends every other element to
exactly one bucket by the first matching rule of the fixed 11-rule order
(silently ignoring unmatched elements), and appends the trimmed title text
to meta_title exactly when the raw title text is non-empty. -/
theorem claim_C4 :
    (∀ doc : Document, extract_meta_tags doc = collectSpec doc) ∧
    extract_meta_tags
      ⟨some "  ", [⟨some "AUTHOR", none, some " X "⟩, ⟨some "author", none, some "   "⟩]⟩
      = { emptyBag with meta_title := [""], author := ["X"] } ∧
    extract_meta_tags ⟨none, [⟨some "unrecognised", some "unrecognised", some "v"⟩]⟩
      = emptyBag := by
  refine ⟨?_, by decide, by decide⟩
  intro doc
  simp only [extract_meta_tags, collectSpec, metaStep_eq_metaStepSpec]

/-- C5: build_ris_record emits, in order, the TY line, one AU line per
author with a trailing comma, a TI line only for a present title, a PY line
only for a present year, then always the UR, N1 and ER lines (the ER line
keeping its trailing space), joined with single newlines and terminated
with two trailing newlines. -/
theorem claim_C5 :
    (∀ (url : String) (title : Option String) (authors : List String)
        (year : Option String) (apa_ref : String),
      build_ris_record url title authors year apa_ref =
        pyJoin "\n" (["TY  - ELEC"] ++ authors.map (fun a => "AU  - " ++ a ++ ",") ++
          optRisLine "TI  - " title ++ optRisLine "PY  - " year ++
          ["UR  - " ++ url] ++ ["N1  - " ++ apa_ref] ++ ["ER  - "]) ++ "\n\n") ∧
    build_ris_record "http://x" (some "T") ["A", "B"] (some "2023") "ref"
      = "TY  - ELEC\nAU  - A,\nAU  - B,\nTI  - T\nPY  - 2023\nUR  - http://x\nN1  - ref\nER  - \n\n" ∧
    build_ris_record "http://x" none [] none "ref"
      = "TY  - ELEC\nUR  - http://x\nN1  - ref\nER  - \n\n" := by
  refine ⟨?_, by decide, by decide⟩
  intro url title authors year apa_ref
  simp only [build_ris_record, List.append_assoc]

/-- C6: build_apa_reference always returns the trimmed single-line string
whose author segment is the comma-space-joined author list, else the site
name, else the literal "Author"; whose year segment is the year or "n.d.";
whose title segment is the title or "Title not available"; and whose site
segment is the site name or the empty string — degrading to the fixed
placeholders rather than an error. -/
theorem claim_C6 :
    (∀ (url : String) (title : Option String) (authors : List String)
        (year : Option String) (site_name : Option String),
      build_apa_reference url title authors year site_name =
        pyStrip ((match authors with
          | [] => pyStrOr site_name "Author"
          | _ :: _ => pyJoin ", " authors) ++ ". (" ++ pyStrOr year "n.d." ++ "). " ++
          pyStrOr title "Title not available" ++ ". " ++ pyStrOr site_name "" ++
          ". Retrieved from " ++ url)) ∧
    build_apa_reference "http://x" none [] none none
      = "Author. (n.d.). Title not available. . Retrieved from http://x" ∧
    build_apa_reference "" none [] none none
      = "Author. (n.d.). Title not available. . Retrieved from" ∧
    build_apa_reference "http://x" (some "T") ["Doe, J.", "Roe, A."] (some "2023") (some "S")
      = "Doe, J., Roe, A.. (2023). T. S. Retrieved from http://x" := by
  refine ⟨fun _ _ _ _ _ => rfl, by decide, by decide, by decide⟩

lemma metaStep_site_ne (bag : MetaBag) (tag : MetaTag)
    (h : ∀ v ∈ bag.site_name, v ≠ "") :
    ∀ v ∈ (metaStep bag tag).site_name, v ≠ "" := by
  rw [metaStep_eq_metaStepSpec]
  simp only [metaStepSpec]
  by_cases hc : pyStrip (tag.content.getD "") = ""
  · simpa [hc] using h
  · simp only [hc, if_false, if_neg hc]
    rcases hd : dispatchRule (pyLower (tag.name.getD "")) (pyLower (tag.property.getD "")) with _ | k
    · simpa using h
    · cases k <;> simp only [pushBucket] <;> intro v hv <;>
        first
          | exact h v hv
          | (rcases List.mem_append.mp hv with hv' | hv'
             · exact h v hv'
             · rw [List.mem_singleton.mp hv']
               exact hc)

lemma foldl_site_ne (tags : List MetaTag) :
    ∀ bag : MetaBag, (∀ v ∈ bag.site_name, v ≠ "") →
      ∀ v ∈ (tags.foldl metaStep bag).site_name, v ≠ "" := by
  induction tags with
  | nil => intro bag h; simpa using h
  | cons t ts ih => intro bag h; exact ih _ (metaStep_site_ne bag t h)

lemma extract_site_ne (doc : Document) :
    ∀ v ∈ (extract_meta_tags doc).site_name, v ≠ "" := by
  rcases doc with ⟨title, metas⟩
  simp only [extract_meta_tags]
  apply foldl_site_ne
  cases title with
  | none => simp [emptyBag]
  | some t =>
    by_cases ht : t = "" <;> simp [ht, emptyBag]

lemma choose_site_name_ne (doc : Document) (url : String) :
    choose_site_name (extract_meta_tags doc) url ≠ "" := by
  have hsite := extract_site_ne doc
  rcases hS : (extract_meta_tags doc).site_name with _ | ⟨v, vs⟩
  · simp only [choose_site_name, hS]
    split
    · decide
    · next hne => exact hne
  · simp only [choose_site_name, hS]
    exact hsite v (by rw [hS]; exact List.mem_cons_self v vs)

/-- C7: choose_site_name returns the first site_name bucket value when the
bucket is non-empty, else the network-location component of the URL, else
the literal "Website"; and on every MetaBag produced by the Meta Collector
the result is a non-empty string. -/
theorem claim_C7 :
    (∀ (doc : Document) (url : String),
      ((choose_site_name (extract_meta_tags doc) url) == "") = false) ∧
    (∀ (m : MetaBag) (url v : String) (vs : List String),
      choose_site_name { m with site_name := v :: vs } url = v) ∧
    (∀ (m : MetaBag) (url : String),
      choose_site_name { m with site_name := [] } url =
        if urlparse_netloc url = "" then "Website" else urlparse_netloc url) ∧
    choose_site_name emptyBag "https://www.example.com/a/b" = "www.example.com" := by
  refine ⟨?_, fun _ _ _ _ => rfl, fun _ _ => rfl, by decide⟩
  intro doc url
  exact beq_eq_false_iff_ne.mpr (choose_site_name_ne doc url)

/-- C10: the claim fails on the document whose only meta element carries
property og:site_name with content "Author": the author list comes out
empty, the site name is the string "Author", and the author segment of the
APA reference is therefore the literal "Author" even though the fallback
branch for an empty site name is not the branch taken. -/
theorem claim_C10_counterexample :
    choose_authors (extract_meta_tags
      (⟨none, [⟨none, some "og:site_name", some "Author"⟩]⟩ : Document)) = [] ∧
    choose_site_name (extract_meta_tags
      (⟨none, [⟨none, some "og:site_name", some "Author"⟩]⟩ : Document)) "http://example.com"
      = "Author" ∧
    apaAuthorPart
      (choose_authors (extract_meta_tags
        (⟨none, [⟨none, some "og:site_name", some "Author"⟩]⟩ : Document)))
      (some (choose_site_name (extract_meta_tags
        (⟨none, [⟨none, some "og:site_name", some "Author"⟩]⟩ : Document)) "http://example.com"))
      = "Author" := by
  refine ⟨by decide, by decide, by decide⟩

/-- C10 (amended): in the composed pipeline the site name passed to
build_apa_reference is always a non-empty string, so with an empty author
list the author segment equals that site name and the fallback branch that
would substitute the literal "Author" for an empty site name is never
taken; the segment can read "Author" only when the site name itself is that
string. -/
theorem claim_C10_amended :
    ∀ (doc : Document) (url : String),
      ((choose_site_name (extract_meta_tags doc) url) == "") = false ∧
      apaAuthorPart [] (some (choose_site_name (extract_meta_tags doc) url)) =
        choose_site_name (extract_meta_tags doc) url := by
  intro doc url
  have h := choose_site_name_ne doc url
  refine ⟨beq_eq_false_iff_ne.mpr h, ?_⟩
  simp [apaAuthorPart, pyStrOr, h]
